import Mathlib

/-!
Shallow embedding of the mock-data validation tools of this repository:
the main data validator (six checks over tables, the dataset registry and
checksums) and the flat-format overlay validator (five checks over overlay
files and base tables), together with the shared report/summary logic.

JSON scalar values are modelled by `JVal`; a JSON row object is an
association list from field names to values (JSON objects have distinct
keys).  JavaScript truthiness of the values that occur in this data is
modelled by `jsFalsyV`, and absence of a field by `Option`.
-/

namespace MockData

/-- A JSON scalar value as it occurs in the mock-data tables: null, a
string, a number or a boolean.  (The tables' nested arrays/objects never
reach the compared positions of the validator: ids, discriminators and
type tags are scalars.) -/
inductive JVal where
  | vnull : JVal
  | vstr : String → JVal
  | vnum : Int → JVal
  | vbool : Bool → JVal
deriving DecidableEq, Repr

/-- A row: a JSON object, i.e. an association list from field names to
values, in insertion order, with distinct keys. -/
abbrev Row := List (String × JVal)

/-- JavaScript property read `row[k]`: `none` models `undefined`. -/
def rowGet (r : Row) (k : String) : Option JVal :=
  (r.find? (fun p => p.1 == k)).map (·.2)

/-- JavaScript `k in row`. -/
def rowHas (r : Row) (k : String) : Bool :=
  r.any (fun p => p.1 == k)

/-- JavaScript falsiness of a defined JSON scalar: null, `""`, `0` and
`false` are falsy. -/
def jsFalsyV : JVal → Bool
  | .vnull => true
  | .vstr s => s == ""
  | .vnum n => n == 0
  | .vbool b => !b

/-- JavaScript falsiness of a possibly-undefined value (`undefined` is
falsy). -/
def jsFalsy : Option JVal → Bool
  | none => true
  | some v => jsFalsyV v

/-- Template-literal rendering of a JSON scalar (as in `${row.id}`). -/
def jvalToString : JVal → String
  | .vnull => "null"
  | .vstr s => s
  | .vnum n => toString n
  | .vbool b => if b then "true" else "false"

/-- Template-literal rendering of a possibly-undefined value. -/
def optValToString : Option JVal → String
  | none => "undefined"
  | some v => jvalToString v

/-- A loaded table: its name (the filename without `.json`), its
`$meta.schema` as an association list (the empty list models a missing or
empty schema, exactly as `Object.keys(table.$meta?.schema || {})` does),
and its rows. -/
structure Table where
  name : String
  schema : List (String × String)
  rows : List Row
deriving DecidableEq, Repr

/-- `schema[field]` lookup. -/
def schemaLookup (s : List (String × String)) (f : String) : Option String :=
  (s.find? (fun p => p.1 == f)).map (·.2)

/-- `tables[name]` lookup among the loaded tables. -/
def findTable (ts : List Table) (n : String) : Option Table :=
  ts.find? (fun t => t.name == n)

/-! ### Check 1: Dataset consistency (main validator) -/

/-- Check 1 of the main validator: each table listed in `dataset.json`
without a loaded file is one error, then each loaded file not listed in
`dataset.json` is one error. -/
def datasetErrors (registryTables : List String) (tables : List Table) : List String :=
  (registryTables.flatMap fun n =>
    if (findTable tables n).isSome then []
    else ["Table \"" ++ n ++ "\" listed in dataset.json but no file found"]) ++
  (tables.flatMap fun t =>
    if registryTables.contains t.name then []
    else ["File " ++ t.name ++ ".json exists but not listed in dataset.json"])

/-! ### Check 2: Schema completeness (main validator) -/

/-- The label used for a row in error messages: `row.id || i` — the id if
truthy, otherwise the positional index. -/
def rowLabel (row : Row) (i : Nat) : String :=
  match rowGet row "id" with
  | some v => if jsFalsyV v then toString i else jvalToString v
  | none => toString i

/-- The schema-completeness error message for one missing field. -/
def schemaErrMsg (name : String) (label : String) (field : String) : String :=
  name ++ " row " ++ label ++ ": missing \"" ++ field ++ "\""

/-- JavaScript `typeTag.includes('?')` for the one-character pattern:
the type tag contains the character `?`. -/
def includesQ (ty : String) : Bool :=
  ty.data.contains '?'

/-- The errors one schema entry contributes for one row: a missing-field
error when the field is absent from the row and its type tag
(`schema[field] || ''`) does not contain `?`. -/
def rowFieldErrors (name : String) (schema : List (String × String)) (i : Nat)
    (row : Row) (fp : String × String) : List String :=
  let isNullable := includesQ ((schemaLookup schema fp.1).getD "")
  if !(rowHas row fp.1) && !isNullable then [schemaErrMsg name (rowLabel row i) fp.1]
  else []

/-- The schema-completeness errors of one row (iterating the schema's
fields in order). -/
def rowSchemaErrors (name : String) (schema : List (String × String)) (i : Nat)
    (row : Row) : List String :=
  schema.flatMap (rowFieldErrors name schema i row)

/-- Check 2 of the main validator for one table: a table with an empty or
missing schema is one error and its rows are not checked; otherwise each
row is checked against every schema field. -/
def schemaTableErrors (t : Table) : List String :=
  if t.schema.isEmpty then [t.name ++ ": no schema in $meta"]
  else t.rows.enum.flatMap fun p => rowSchemaErrors t.name t.schema p.1 p.2

/-! ### Check 3: ID uniqueness (main validator) -/

/-- The missing-id error message of check 3. -/
def idMissingMsg (name : String) : String :=
  name ++ ": row without \"id\" field"

/-- The duplicate-id error message of check 3. -/
def idDupMsg (name : String) (v : JVal) : String :=
  name ++ ": duplicate \"" ++ jvalToString v ++ "\""

/-- The loop of check 3: `seen` models the `ids` set.  A row whose id is
falsy (`!row.id`) gets the missing-id error and is skipped; otherwise a
duplicate error is pushed when the id was already seen, and the id is
added to the set. -/
def idCheckGo (name : String) (seen : List JVal) : List Row → List String
  | [] => []
  | row :: rest =>
    match rowGet row "id" with
    | none => idMissingMsg name :: idCheckGo name seen rest
    | some v =>
      if jsFalsyV v then idMissingMsg name :: idCheckGo name seen rest
      else if seen.contains v then idDupMsg name v :: idCheckGo name seen rest
      else idCheckGo name (v :: seen) rest

/-- Check 3 of the main validator for one table. -/
def idTableErrors (t : Table) : List String :=
  idCheckGo t.name [] t.rows

/-! ### Check 4: Foreign key integrity (main validator) -/

/-- A relation from `dataset.json`, with `from`/`to` already split at the
dot.  `nullable` is the truthiness of `rel.nullable`; `whenCond` is
`rel.when` (an object of exact-match conditions) when present. -/
structure Relation where
  fromTable : String
  fromField : String
  toTable : String
  toField : String
  nullable : Bool
  whenCond : Option (List (String × JVal))
deriving DecidableEq, Repr

/-- All `when` conditions match the row: `row[k] === v` for each pair. -/
def whenMatches (conds : List (String × JVal)) (row : Row) : Bool :=
  conds.all fun p => rowGet row p.1 == some p.2

/-- The valid-target set of a relation: `toField` read from every row of
the target table (`undefined` entries are kept, as `new Set` does). -/
def fkValidIds (toRows : List Row) (toField : String) : List (Option JVal) :=
  toRows.map fun r => rowGet r toField

/-- `value === null || value === undefined`. -/
def isNullish : Option JVal → Bool
  | none => true
  | some .vnull => true
  | some _ => false

/-- The null-but-not-nullable error message of check 4. -/
def fkNullMsg (rel : Relation) (row : Row) : String :=
  rel.fromTable ++ "." ++ rel.fromField ++ " row " ++ optValToString (rowGet row "id") ++
    ": null but not nullable"

/-- The not-found error message of check 4. -/
def fkNotFoundMsg (rel : Relation) (row : Row) : String :=
  rel.fromTable ++ "." ++ rel.fromField ++ " row " ++ optValToString (rowGet row "id") ++
    ": \"" ++ optValToString (rowGet row rel.fromField) ++ "\" not found in " ++ rel.toTable

/-- The body of check 4 for one row once the `when` conditions matched:
a nullish value errors unless the relation is nullable, otherwise a value
outside the valid-target set errors. -/
def fkRowCheck (rel : Relation) (validIds : List (Option JVal)) (row : Row) : List String :=
  let value := rowGet row rel.fromField
  if isNullish value then
    if !rel.nullable then [fkNullMsg rel row] else []
  else
    if !(validIds.contains value) then [fkNotFoundMsg rel row] else []

/-- Check 4 of the main validator for one row of the source table: rows
not matching the `when` conditions are skipped. -/
def fkRowErrors (rel : Relation) (validIds : List (Option JVal)) (row : Row) : List String :=
  match rel.whenCond with
  | some conds => if whenMatches conds row then fkRowCheck rel validIds row else []
  | none => fkRowCheck rel validIds row

/-- Check 4 of the main validator for one relation: a missing source or
target table is one error, otherwise every source row is checked. -/
def fkRelErrors (tables : List Table) (rel : Relation) : List String :=
  match findTable tables rel.fromTable with
  | none => ["Relation " ++ rel.fromTable ++ "." ++ rel.fromField ++ " → " ++
      rel.toTable ++ "." ++ rel.toField ++ ": table \"" ++ rel.fromTable ++ "\" not loaded"]
  | some ft =>
    match findTable tables rel.toTable with
    | none => ["Relation " ++ rel.fromTable ++ "." ++ rel.fromField ++ " → " ++
        rel.toTable ++ "." ++ rel.toField ++ ": table \"" ++ rel.toTable ++ "\" not loaded"]
    | some tt => ft.rows.flatMap (fkRowErrors rel (fkValidIds tt.rows rel.toField))

/-! ### Check 5: Relations consistency (main validator) -/

/-- `!schema[field]`: the schema entry is absent or its type tag is the
empty string. -/
def schemaEntryFalsy (o : Option String) : Bool :=
  o.getD "" == ""

/-- Check 5 of the main validator for one relation: the `from` field must
be a key of the source table's schema, the `to` field a key of the target
table's schema (tables that are not loaded are skipped here). -/
def relConsistencyErrors (tables : List Table) (rel : Relation) : List String :=
  (match findTable tables rel.fromTable with
   | some t =>
     if schemaEntryFalsy (schemaLookup t.schema rel.fromField) then
       ["Relation field \"" ++ rel.fromField ++ "\" not in " ++ rel.fromTable ++ " schema"]
     else []
   | none => []) ++
  (match findTable tables rel.toTable with
   | some t =>
     if schemaEntryFalsy (schemaLookup t.schema rel.toField) then
       ["Relation field \"" ++ rel.toField ++ "\" not in " ++ rel.toTable ++ " schema"]
     else []
   | none => [])

/-! ### Check 6: Checksums (main validator) -/

/-- Check 6 of the main validator: when `checksums.json` exists (`some`),
each table file without a checksum entry is one error and each checksum
entry without a table file is one error; when it does not exist the check
yields no errors. -/
def checksumErrors (tableFiles : List String) (checksums : Option (List String)) : List String :=
  match checksums with
  | none => []
  | some cs =>
    (tableFiles.flatMap fun f =>
      if cs.contains f then [] else ["checksums.json missing entry for " ++ f]) ++
    (cs.flatMap fun f =>
      if tableFiles.contains f then []
      else ["checksums.json has entry for " ++ f ++ " but file not found"])

/-! ### The main validator's battery and the shared report logic -/

/-- The name and collected error strings of one check. -/
structure CheckResult where
  name : String
  errors : List String
deriving DecidableEq, Repr

/-- The registry read from `dataset.json`: the table names and the
relations. -/
structure Registry where
  tables : List String
  relations : List Relation
deriving DecidableEq, Repr

/-- The main validator's fixed battery, in the order the script runs the
checks.  The table files of the checksums check are the loaded table
names with their `.json` extension restored. -/
def mainChecks (reg : Registry) (tables : List Table)
    (checksums : Option (List String)) : List CheckResult :=
  [ ⟨"Dataset consistency", datasetErrors reg.tables tables⟩,
    ⟨"Schema completeness", tables.flatMap schemaTableErrors⟩,
    ⟨"ID uniqueness", tables.flatMap idTableErrors⟩,
    ⟨"Foreign key integrity", reg.relations.flatMap (fkRelErrors tables)⟩,
    ⟨"Relations consistency", reg.relations.flatMap (relConsistencyErrors tables)⟩,
    ⟨"Checksums", checksumErrors (tables.map fun t => t.name ++ ".json") checksums⟩ ]

/-- The `report` helper threaded over all checks: a check with no errors
is appended to `passed`, a check with errors to `failed`. -/
def runReport (checks : List CheckResult) :
    List String × List (String × List String) :=
  checks.foldl
    (fun acc c =>
      if c.errors.isEmpty then (acc.1 ++ [c.name], acc.2)
      else (acc.1, acc.2 ++ [(c.name, c.errors)]))
    ([], [])

/-- `process.exit(failCount > 0 ? 1 : 0)`. -/
def exitCode (checks : List CheckResult) : Nat :=
  if (runReport checks).2.length > 0 then 1 else 0

/-- The error lines `report` prints for one failed check: the first ten
errors, followed by a remainder line when more than ten exist. -/
def displayErrors (errors : List String) : List String :=
  errors.take 10 ++
    (if errors.length > 10 then
      ["... and " ++ toString (errors.length - 10) ++ " more"]
     else [])

/-! ### The flat-format overlay validator (`packages/mock-overlays/validate.mjs`) -/

/-- A parsed overlay file of the flat format: the filename, the name
derived from the filename (basename without `.json`), and the relevant
`$meta` members and `values`, each `Option` because the JSON may omit
them (`none` also models a member of the wrong shape, e.g. a non-array
`clients`). -/
structure Overlay where
  filename : String
  name : String
  metaName : Option String
  visibility : Option String
  clients : Option (List String)
  fields : Option (List String)
  values : Option (List String)
deriving DecidableEq, Repr

/-- Overlay check 1: `$meta.name` must be truthy and equal to the
filename without extension. -/
def ovCheck1Errors (o : Overlay) : List String :=
  let metaName := o.metaName.getD ""
  if metaName == "" then [o.filename ++ ": missing $meta.name"]
  else if metaName != o.name then
    [o.filename ++ ": $meta.name \"" ++ metaName ++ "\" != filename \"" ++ o.name ++ "\""]
  else []

/-- The invalid-visibility error message of overlay check 2. -/
def ovVisibilityMsg (o : Overlay) : String :=
  o.filename ++ ": $meta.visibility must be \"public\" or \"private\", got \"" ++
    (match o.visibility with | some s => s | none => "undefined") ++ "\""

/-- The missing-clients error message of overlay check 2. -/
def ovClientsMsg (o : Overlay) : String :=
  o.filename ++ ": private overlay missing non-empty clients array"

/-- Overlay check 2 for one overlay: the visibility must be `public` or
`private`, and a private overlay must carry a non-empty `clients`
array. -/
def ovCheck2Errors (o : Overlay) : List String :=
  (if o.visibility != some "public" && o.visibility != some "private" then
    [ovVisibilityMsg o]
   else []) ++
  (if o.visibility == some "private" then
    (match o.clients with
     | some cs => if cs.isEmpty then [ovClientsMsg o] else []
     | none => [ovClientsMsg o])
   else [])

/-- Overlay check 3 for one overlay: `$meta.fields` must be a non-empty
array (its elements are strings in this model, as in every overlay
file). -/
def ovCheck3Errors (o : Overlay) : List String :=
  match o.fields with
  | some fs => if fs.isEmpty then [o.filename ++ ": $meta.fields must be a non-empty array"] else []
  | none => [o.filename ++ ": $meta.fields must be a non-empty array"]

/-- Overlay check 4 for one overlay: `values` must be a non-empty
array. -/
def ovCheck4Errors (o : Overlay) : List String :=
  match o.values with
  | some vs => if vs.isEmpty then [o.filename ++ ": values must be a non-empty array"] else []
  | none => [o.filename ++ ": values must be a non-empty array"]

/-- The matching fields of an overlay against a table, as overlay check 5
computes them: the overlay's fields that occur in the table's first row
(`sampleRow = rows[0]`); an empty table has no matching fields. -/
def ovMatchingFields (o : Overlay) (t : Table) : List String :=
  match t.rows with
  | [] => []
  | sampleRow :: _ => (o.fields.getD []).filter fun f => rowHas sampleRow f

/-- The insufficiency error message of overlay check 5. -/
def ovInsuffMsg (o : Overlay) (t : Table) (field : String) : String :=
  o.filename ++ ": needs " ++ toString t.rows.length ++ " values for " ++
    t.name ++ "." ++ field ++ ", has " ++ toString (o.values.getD []).length

/-- Overlay check 5 for one overlay against one table: when the overlay
matches the table and its values are fewer than the table's rows, one
error per matching field. -/
def ovTableErrors (o : Overlay) (t : Table) : List String :=
  if (ovMatchingFields o t).isEmpty then []
  else if (o.values.getD []).length < t.rows.length then
    (ovMatchingFields o t).map (ovInsuffMsg o t)
  else []

/-- Overlay check 5 over the whole stack: the overlays in file order,
each against every base table, all errors collected. -/
def ovCheck5Errors (overlays : List Overlay) (tables : List Table) : List String :=
  overlays.flatMap fun o => tables.flatMap fun t => ovTableErrors o t

/-- The overlay validator's battery, in the order the script runs the
checks (check 5 is skipped from the report when no base tables were
loaded). -/
def overlayChecks (overlays : List Overlay) (tables : List Table) : List CheckResult :=
  [ ⟨"Filename matches $meta.name", overlays.flatMap ovCheck1Errors⟩,
    ⟨"Visibility valid, private has clients", overlays.flatMap ovCheck2Errors⟩,
    ⟨"Fields is non-empty string array", overlays.flatMap ovCheck3Errors⟩,
    ⟨"Values is non-empty array", overlays.flatMap ovCheck4Errors⟩,
    ⟨"Values >= row count for matching tables", ovCheck5Errors overlays tables⟩ ]

/-! ### Concrete data used by the examples -/

/-- A small `users` table in the shape of the repository's data. -/
def usersTable : Table :=
  ⟨"users",
   [("id", "string"), ("firstName", "string"), ("lastName", "string"),
    ("email", "string"), ("phone", "string")],
   [[("id", .vstr "usr_001"), ("firstName", .vstr "User"), ("lastName", .vstr "One"),
     ("email", .vstr "user1@example.com"), ("phone", .vstr "+10000000001")],
    [("id", .vstr "usr_002"), ("firstName", .vstr "User"), ("lastName", .vstr "Two"),
     ("email", .vstr "user2@example.com"), ("phone", .vstr "+10000000002")]]⟩

/-- The polymorphic relation `memberships.sourceId → users.id` guarded by
`when: {sourceType: "user"}`. -/
def memberRel : Relation :=
  ⟨"memberships", "sourceId", "users", "id", false, some [("sourceType", .vstr "user")]⟩

/-- A membership row with `sourceType: "entity"` and a `sourceId` that is
not a user id. -/
def membershipEntityRow : Row :=
  [("id", .vstr "mbr_001"), ("sourceType", .vstr "entity"), ("sourceId", .vstr "usr_999"),
   ("targetType", .vstr "entity"), ("targetId", .vstr "farm_001"), ("status", .vstr "active")]

/-- The same membership row with `sourceType: "user"`. -/
def membershipUserRow : Row :=
  [("id", .vstr "mbr_001"), ("sourceType", .vstr "user"), ("sourceId", .vstr "usr_999"),
   ("targetType", .vstr "entity"), ("targetId", .vstr "farm_001"), ("status", .vstr "active")]

/-- A memberships table holding one given row. -/
def membershipsTableWith (row : Row) : Table :=
  ⟨"memberships",
   [("id", "string"), ("sourceType", "string"), ("sourceId", "string"),
    ("targetType", "string"), ("targetId", "string"), ("status", "string")],
   [row]⟩

/-! ### Helper lemmas -/

/-- The length of a flatMap of conditional singletons is the number of
elements failing the condition. -/
theorem length_flatMap_ite_singleton {α β : Type} (l : List α) (p : α → Bool) (e : α → β) :
    (l.flatMap fun x => if p x then [] else [e x]).length
      = (l.filter fun x => !p x).length := by
  induction l with
  | nil => rfl
  | cons a l ih =>
    by_cases h : p a = true <;>
      simp [List.flatMap_cons, List.filter_cons, h, ih]

/-- `findTable` succeeds exactly when a loaded table has the name. -/
theorem findTable_isSome (ts : List Table) (n : String) :
    (findTable ts n).isSome = true ↔ n ∈ ts.map Table.name := by
  simp only [findTable, List.find?_isSome, List.mem_map]
  constructor
  · rintro ⟨t, ht, he⟩
    exact ⟨t, ht, by simpa using he.symm⟩
  · rintro ⟨t, ht, he⟩
    exact ⟨t, ht, by simp [he]⟩

/-- Removing a field from a row (the `delete row[f]` of the spec's
removal scenario): all pairs with that key are dropped. -/
def removeField (r : Row) (f : String) : Row :=
  r.filter fun p => !(p.1 == f)

/-- Step equation for `removeField`. -/
theorem removeField_cons (p : String × JVal) (r : Row) (f : String) :
    removeField (p :: r) f
      = if p.1 == f then removeField r f else p :: removeField r f := by
  simp only [removeField, List.filter_cons]
  by_cases hp : (p.1 == f) = true <;> simp [hp]

/-- Step equation for `rowHas`. -/
theorem rowHas_cons (p : String × JVal) (r : Row) (k : String) :
    rowHas (p :: r) k = ((p.1 == k) || rowHas r k) := rfl

/-- Step equation for `rowGet`. -/
theorem rowGet_cons (p : String × JVal) (r : Row) (k : String) :
    rowGet (p :: r) k = if p.1 == k then some p.2 else rowGet r k := by
  simp only [rowGet, List.find?]
  by_cases hp : (p.1 == k) = true <;> simp [hp]

/-- Removing a field leaves the other fields' presence unchanged. -/
theorem rowHas_removeField (f k : String) (hk : k ≠ f) (r : Row) :
    rowHas (removeField r f) k = rowHas r k := by
  induction r with
  | nil => rfl
  | cons p r ih =>
    rw [removeField_cons]
    by_cases hp : (p.1 == f) = true
    · have hpk : (p.1 == k) = false := by
        rw [beq_iff_eq] at hp
        exact beq_eq_false_iff_ne.mpr (hp ▸ fun h => hk h.symm)
      rw [if_pos hp, ih, rowHas_cons, hpk, Bool.false_or]
    · rw [if_neg hp, rowHas_cons, rowHas_cons, ih]

/-- The removed field is absent afterwards. -/
theorem rowHas_removeField_self (f : String) (r : Row) :
    rowHas (removeField r f) f = false := by
  induction r with
  | nil => rfl
  | cons p r ih =>
    rw [removeField_cons]
    by_cases hp : (p.1 == f) = true
    · rw [if_pos hp]; exact ih
    · rw [if_neg hp, rowHas_cons, ih]
      have hp' : (p.1 == f) = false := by
        exact Bool.not_eq_true _ ▸ Bool.of_not_eq_true hp
      rw [hp']
      rfl

/-- Removing a field leaves the other fields' values unchanged. -/
theorem rowGet_removeField (f k : String) (hk : k ≠ f) (r : Row) :
    rowGet (removeField r f) k = rowGet r k := by
  induction r with
  | nil => rfl
  | cons p r ih =>
    rw [removeField_cons]
    by_cases hp : (p.1 == f) = true
    · have hpk : (p.1 == k) = false := by
        rw [beq_iff_eq] at hp
        exact beq_eq_false_iff_ne.mpr (hp ▸ fun h => hk h.symm)
      rw [if_pos hp, ih, rowGet_cons, hpk]
      simp
    · rw [if_neg hp, rowGet_cons, rowGet_cons, ih]

/-- The length of one schema entry's contribution to a row is an
indicator of the missing-and-non-nullable condition. -/
theorem length_rowFieldErrors (name : String) (schema : List (String × String))
    (i : Nat) (row : Row) (fp : String × String) :
    (rowFieldErrors name schema i row fp).length =
      if !(rowHas row fp.1) && !(includesQ ((schemaLookup schema fp.1).getD ""))
      then 1 else 0 := by
  simp only [rowFieldErrors]
  split <;> rfl

/-- Congruence for the length of a flatMap. -/
theorem flatMap_length_congr {α β : Type} (l : List α) (g h : α → List β)
    (H : ∀ x ∈ l, (g x).length = (h x).length) :
    (l.flatMap g).length = (l.flatMap h).length := by
  induction l with
  | nil => rfl
  | cons a l ih =>
    simp only [List.flatMap_cons, List.length_append]
    rw [H a (List.mem_cons_self a l), ih fun x hx => H x (List.mem_cons_of_mem a hx)]

/-- The length of a row's schema errors does not depend on the row's
index (the index only enters the message text). -/
theorem length_rowSchemaErrors_index (name : String) (schema : List (String × String))
    (i j : Nat) (row : Row) :
    (rowSchemaErrors name schema i row).length
      = (rowSchemaErrors name schema j row).length := by
  exact flatMap_length_congr schema _ _ fun fp _ => by
    rw [length_rowFieldErrors, length_rowFieldErrors]

/-- Looking a key up past a prefix that does not contain it. -/
theorem schemaLookup_append_not_mem (s1 s2 : List (String × String)) (f : String)
    (h : ∀ fp ∈ s1, fp.1 ≠ f) :
    schemaLookup (s1 ++ s2) f = schemaLookup s2 f := by
  induction s1 with
  | nil => rfl
  | cons p s1 ih =>
    have hp : (p.1 == f) = false := by
      simp; exact h p (List.mem_cons_self p s1)
    simp only [schemaLookup, List.cons_append, List.find?] at *
    rw [hp]
    exact ih fun fp hfp => h fp (List.mem_cons_of_mem p hfp)

/-- The enum-indexed flatMap of per-row schema errors has the length of
the index-free sum over rows. -/
theorem length_enumFrom_flatMap_rowSchemaErrors (name : String)
    (schema : List (String × String)) (rows : List Row) (n : Nat) :
    ((List.enumFrom n rows).flatMap fun p => rowSchemaErrors name schema p.1 p.2).length
      = (rows.map fun row => (rowSchemaErrors name schema 0 row).length).sum := by
  induction rows generalizing n with
  | nil => rfl
  | cons row rows ih =>
    simp only [List.enumFrom, List.flatMap_cons, List.length_append, List.map_cons,
      List.sum_cons]
    rw [ih (n + 1), length_rowSchemaErrors_index name schema n 0 row]

/-- The element at the junction of a decomposed list appears in the
enumeration, at the prefix's length plus the starting index. -/
theorem mem_enumFrom_middle {α : Type} (pre post : List α) (x : α) (n : Nat) :
    (n + pre.length, x) ∈ List.enumFrom n (pre ++ x :: post) := by
  induction pre generalizing n with
  | nil => simp [List.enumFrom]
  | cons p pre ih =>
    have h := ih (n + 1)
    simp only [List.cons_append, List.enumFrom, List.mem_cons]
    right
    have harith : n + (p :: pre).length = (n + 1) + pre.length := by
      simp [List.length_cons]; omega
    rw [harith]
    exact h

/-- The enum-based form of `length_enumFrom_flatMap_rowSchemaErrors`. -/
theorem length_enum_flatMap_rowSchemaErrors (name : String)
    (schema : List (String × String)) (rows : List Row) :
    ((List.enum rows).flatMap fun p => rowSchemaErrors name schema p.1 p.2).length
      = (rows.map fun row => (rowSchemaErrors name schema 0 row).length).sum :=
  length_enumFrom_flatMap_rowSchemaErrors name schema rows 0

/-- Removing a present, non-nullable schema field from a row adds exactly
one to the row's schema-error count (distinct schema keys assumed, as in
any JSON schema object). -/
theorem length_rowSchemaErrors_remove (name : String) (schema : List (String × String))
    (i : Nat) (row : Row) (f ty : String)
    (hnd : (schema.map Prod.fst).Nodup) (hmem : (f, ty) ∈ schema)
    (hty : includesQ ty = false) (hhas : rowHas row f = true) :
    (rowSchemaErrors name schema i (removeField row f)).length
      = (rowSchemaErrors name schema i row).length + 1 := by
  obtain ⟨s1, s2, rfl⟩ := List.append_of_mem hmem
  have hmap : ((s1 ++ (f, ty) :: s2).map Prod.fst)
      = s1.map Prod.fst ++ f :: s2.map Prod.fst := by simp
  rw [hmap] at hnd
  rw [List.nodup_append] at hnd
  have hf1 : ∀ fp ∈ s1, fp.1 ≠ f := by
    intro fp hfp heq
    exact hnd.2.2 (heq ▸ List.mem_map_of_mem Prod.fst hfp) (List.mem_cons_self f _)
  have hf2 : ∀ fp ∈ s2, fp.1 ≠ f := by
    intro fp hfp heq
    exact (List.nodup_cons.mp hnd.2.1).1 (heq ▸ List.mem_map_of_mem Prod.fst hfp)
  have hlookup : schemaLookup (s1 ++ (f, ty) :: s2) f = some ty := by
    rw [schemaLookup_append_not_mem s1 _ f hf1]
    simp [schemaLookup, List.find?]
  simp only [rowSchemaErrors, List.flatMap_append, List.flatMap_cons, List.length_append]
  have h1 : (s1.flatMap (rowFieldErrors name (s1 ++ (f, ty) :: s2) i (removeField row f))).length
      = (s1.flatMap (rowFieldErrors name (s1 ++ (f, ty) :: s2) i row)).length := by
    apply flatMap_length_congr
    intro fp hfp
    rw [length_rowFieldErrors, length_rowFieldErrors,
      rowHas_removeField f fp.1 (hf1 fp hfp) row]
  have h2 : (s2.flatMap (rowFieldErrors name (s1 ++ (f, ty) :: s2) i (removeField row f))).length
      = (s2.flatMap (rowFieldErrors name (s1 ++ (f, ty) :: s2) i row)).length := by
    apply flatMap_length_congr
    intro fp hfp
    rw [length_rowFieldErrors, length_rowFieldErrors,
      rowHas_removeField f fp.1 (hf2 fp hfp) row]
  have hmidr : (rowFieldErrors name (s1 ++ (f, ty) :: s2) i (removeField row f) (f, ty)).length
      = 1 := by
    rw [length_rowFieldErrors]
    simp [rowHas_removeField_self, hlookup, hty]
  have hmid : (rowFieldErrors name (s1 ++ (f, ty) :: s2) i row (f, ty)).length = 0 := by
    rw [length_rowFieldErrors]
    simp [hhas]
  omega

/-- The report fold splits into the passed and failed projections, for
any starting accumulator. -/
theorem runReport_append (checks : List CheckResult) (p : List String)
    (f : List (String × List String)) :
    checks.foldl
      (fun acc c =>
        if c.errors.isEmpty then (acc.1 ++ [c.name], acc.2)
        else (acc.1, acc.2 ++ [(c.name, c.errors)])) (p, f)
      = (p ++ (checks.filter fun c => c.errors.isEmpty).map (·.name),
         f ++ (checks.filter fun c => !c.errors.isEmpty).map fun c => (c.name, c.errors)) := by
  induction checks generalizing p f with
  | nil => simp
  | cons c cs ih =>
    rw [List.foldl_cons]
    by_cases h : c.errors.isEmpty = true
    · rw [if_pos h, ih, List.filter_cons, List.filter_cons, h]
      simp
    · have hfalse : c.errors.isEmpty = false := by
        revert h; cases c.errors.isEmpty <;> simp
      rw [if_neg h, ih, List.filter_cons, List.filter_cons, hfalse]
      simp

/-! ### Claim theorems -/

/-- Claim C1: foreign-key integrity per source row — a row failing the
relation's `when` conditions contributes no errors; a row whose
`fromField` value is null or absent contributes exactly one error unless
the relation is nullable; any other row contributes exactly one error iff
its value is not among the `toField` values of the target table.  In
particular the membership row with `sourceType: "entity"` and the invalid
`sourceId` yields zero errors for the user-guarded relation, and the same
row with `sourceType: "user"` yields exactly one. -/
theorem fk_integrity_row_semantics :
    (∀ (rel : Relation) (validIds : List (Option JVal)) (row : Row)
        (conds : List (String × JVal)),
        rel.whenCond = some conds → whenMatches conds row = false →
        fkRowErrors rel validIds row = [])
  ∧ (∀ (rel : Relation) (validIds : List (Option JVal)) (row : Row),
        (rel.whenCond = none ∨
          ∃ conds, rel.whenCond = some conds ∧ whenMatches conds row = true) →
        isNullish (rowGet row rel.fromField) = true →
        (fkRowErrors rel validIds row).length = if rel.nullable then 0 else 1)
  ∧ (∀ (rel : Relation) (validIds : List (Option JVal)) (row : Row),
        (rel.whenCond = none ∨
          ∃ conds, rel.whenCond = some conds ∧ whenMatches conds row = true) →
        isNullish (rowGet row rel.fromField) = false →
        (fkRowErrors rel validIds row).length
          = if validIds.contains (rowGet row rel.fromField) then 0 else 1)
  ∧ fkRelErrors [usersTable, membershipsTableWith membershipEntityRow] memberRel = []
  ∧ (fkRelErrors [usersTable, membershipsTableWith membershipUserRow] memberRel).length = 1 := by
  refine ⟨?_, ?_, ?_, ?_, ?_⟩
  · intro rel validIds row conds h1 h2
    simp [fkRowErrors, h1, h2]
  · intro rel validIds row hw hnull
    have hrow : fkRowErrors rel validIds row = fkRowCheck rel validIds row := by
      rcases hw with h | ⟨conds, h1, h2⟩
      · simp [fkRowErrors, h]
      · simp [fkRowErrors, h1, h2]
    rw [hrow]
    cases hn : rel.nullable <;> simp [fkRowCheck, hnull, hn]
  · intro rel validIds row hw hnn
    have hrow : fkRowErrors rel validIds row = fkRowCheck rel validIds row := by
      rcases hw with h | ⟨conds, h1, h2⟩
      · simp [fkRowErrors, h]
      · simp [fkRowErrors, h1, h2]
    rw [hrow]
    by_cases hc : rowGet row rel.fromField ∈ validIds <;>
      simp [fkRowCheck, hnn, hc]
  · rfl
  · rfl

/-- Witness for C1: concrete instances of each conditional conjunct — the
`when`-skipped row, a null non-nullable value, and a present value missing
from the target set. -/
theorem fk_integrity_row_semantics_witness :
    fkRowErrors memberRel (fkValidIds usersTable.rows "id") membershipEntityRow = []
  ∧ (fkRowErrors ⟨"m", "f", "users", "id", false, none⟩ [] [("id", .vstr "r1")]).length = 1
  ∧ (fkRowErrors memberRel (fkValidIds usersTable.rows "id") membershipUserRow).length = 1 := by
  refine ⟨?_, ?_, ?_⟩
  · exact fk_integrity_row_semantics.1 memberRel (fkValidIds usersTable.rows "id")
      membershipEntityRow [("sourceType", .vstr "user")] rfl (by decide)
  · exact fk_integrity_row_semantics.2.1 ⟨"m", "f", "users", "id", false, none⟩ []
      [("id", .vstr "r1")] (Or.inl rfl) (by decide)
  · exact fk_integrity_row_semantics.2.2.1 memberRel (fkValidIds usersTable.rows "id")
      membershipUserRow (Or.inr ⟨[("sourceType", .vstr "user")], rfl, by decide⟩)
      (by decide)

/-- Claim C3: schema completeness — a table with an empty or missing
schema yields exactly the one error for the table itself (rows are not
checked); and removing one present, non-nullable schema field from one
row adds exactly one schema-completeness error, an error that names the
table, the row's id and the field. -/
theorem schema_completeness_semantics :
    (∀ (name : String) (rows : List Row),
        schemaTableErrors ⟨name, [], rows⟩ = [name ++ ": no schema in $meta"])
  ∧ (∀ (name : String) (schema : List (String × String)) (pre post : List Row)
        (row : Row) (f ty : String),
        (schema.map Prod.fst).Nodup → (f, ty) ∈ schema →
        includesQ ty = false → rowHas row f = true →
        (schemaTableErrors ⟨name, schema, pre ++ removeField row f :: post⟩).length
          = (schemaTableErrors ⟨name, schema, pre ++ row :: post⟩).length + 1)
  ∧ (∀ (name : String) (schema : List (String × String)) (pre post : List Row)
        (row : Row) (f ty : String) (idv : JVal),
        (schema.map Prod.fst).Nodup → (f, ty) ∈ schema →
        includesQ ty = false → rowHas row f = true →
        f ≠ "id" → rowGet row "id" = some idv → jsFalsyV idv = false →
        schemaErrMsg name (jvalToString idv) f
          ∈ schemaTableErrors ⟨name, schema, pre ++ removeField row f :: post⟩) := by
  refine ⟨?_, ?_, ?_⟩
  · intro name rows
    simp [schemaTableErrors]
  · intro name schema pre post row f ty hnd hmem hty hhas
    have hne : schema.isEmpty = false := by
      cases schema with
      | nil => exact absurd hmem (List.not_mem_nil (f, ty))
      | cons a l => rfl
    simp only [schemaTableErrors, hne, Bool.false_eq_true, if_false]
    rw [length_enum_flatMap_rowSchemaErrors, length_enum_flatMap_rowSchemaErrors,
      List.map_append, List.map_append, List.sum_append, List.sum_append,
      List.map_cons, List.map_cons, List.sum_cons, List.sum_cons]
    have h := length_rowSchemaErrors_remove name schema 0 row f ty hnd hmem hty hhas
    omega
  · intro name schema pre post row f ty idv hnd hmem hty hhas hfid hid hfalsy
    have hne : schema.isEmpty = false := by
      cases schema with
      | nil => exact absurd hmem (List.not_mem_nil (f, ty))
      | cons a l => rfl
    simp only [schemaTableErrors, hne, Bool.false_eq_true, if_false]
    apply List.mem_flatMap.mpr
    refine ⟨(pre.length, removeField row f), ?_, ?_⟩
    · have h := mem_enumFrom_middle pre post (removeField row f) 0
      simpa [List.enum] using h
    · obtain ⟨s1, s2, hdec⟩ := List.append_of_mem hmem
      have hnd' := hnd
      rw [hdec] at hnd'
      have hmap : ((s1 ++ (f, ty) :: s2).map Prod.fst)
          = s1.map Prod.fst ++ f :: s2.map Prod.fst := by simp
      rw [hmap, List.nodup_append] at hnd'
      have hf1 : ∀ fp ∈ s1, fp.1 ≠ f := by
        intro fp hfp heq
        exact hnd'.2.2 (heq ▸ List.mem_map_of_mem Prod.fst hfp) (List.mem_cons_self f _)
      have hlookup : schemaLookup schema f = some ty := by
        rw [hdec, schemaLookup_append_not_mem s1 _ f hf1]
        simp [schemaLookup, List.find?]
      apply List.mem_flatMap.mpr
      refine ⟨(f, ty), hmem, ?_⟩
      have hlabel : rowLabel (removeField row f) pre.length = jvalToString idv := by
        rw [rowLabel, rowGet_removeField f "id" (fun h => hfid h.symm) row, hid]
        simp [hfalsy]
      have : rowFieldErrors name schema pre.length (removeField row f) (f, ty)
          = [schemaErrMsg name (jvalToString idv) f] := by
        simp only [rowFieldErrors, rowHas_removeField_self, hlookup, hlabel]
        simp [hty]
      rw [this]
      exact List.mem_singleton.mpr rfl

/-- Witness for C3: on a concrete `users`-shaped table, removing `email`
from the second row adds exactly one error, the one naming the table, the
row id `usr_002` and the field. -/
theorem schema_completeness_semantics_witness :
    (schemaTableErrors ⟨"users", [("id", "string"), ("email", "string")],
        [[("id", .vstr "usr_001"), ("email", .vstr "a@x.com")],
         removeField [("id", .vstr "usr_002"), ("email", .vstr "b@x.com")] "email"]⟩).length
      = (schemaTableErrors ⟨"users", [("id", "string"), ("email", "string")],
          [[("id", .vstr "usr_001"), ("email", .vstr "a@x.com")],
           [("id", .vstr "usr_002"), ("email", .vstr "b@x.com")]]⟩).length + 1
  ∧ schemaErrMsg "users" "usr_002" "email"
      ∈ schemaTableErrors ⟨"users", [("id", "string"), ("email", "string")],
          [[("id", .vstr "usr_001"), ("email", .vstr "a@x.com")],
           removeField [("id", .vstr "usr_002"), ("email", .vstr "b@x.com")] "email"]⟩ := by
  constructor
  · exact schema_completeness_semantics.2.1 "users" [("id", "string"), ("email", "string")]
      [[("id", .vstr "usr_001"), ("email", .vstr "a@x.com")]] []
      [("id", .vstr "usr_002"), ("email", .vstr "b@x.com")] "email" "string"
      (by decide) (by decide) (by decide) (by decide)
  · exact schema_completeness_semantics.2.2 "users" [("id", "string"), ("email", "string")]
      [[("id", .vstr "usr_001"), ("email", .vstr "a@x.com")]] []
      [("id", .vstr "usr_002"), ("email", .vstr "b@x.com")] "email" "string" (.vstr "usr_002")
      (by decide) (by decide) (by decide) (by decide) (by decide) (by decide) (by decide)

/-- A table whose two rows share the falsy id `""`. -/
def dupEmptyIdTable : Table :=
  ⟨"users", [("id", "string")],
   [[("id", .vstr ""), ("email", .vstr "a@x.com")],
    [("id", .vstr ""), ("email", .vstr "b@x.com")]]⟩

/-- Counterexample to claim C2 as stated: a table containing exactly two
rows sharing the same id value (the falsy `""`) on which the
ID-uniqueness check reports two errors, not one — both rows are reported
as missing an id and neither enters duplicate detection. -/
theorem id_uniqueness_two_rows_counterexample :
    dupEmptyIdTable.rows.length = 2
  ∧ (∀ r ∈ dupEmptyIdTable.rows, rowGet r "id" = some (.vstr ""))
  ∧ idTableErrors dupEmptyIdTable = [idMissingMsg "users", idMissingMsg "users"]
  ∧ (idTableErrors dupEmptyIdTable).length = 2 := by
  refine ⟨rfl, ?_, rfl, rfl⟩
  decide

/-- Claim C2 as amended: a row whose id is absent is reported with the
missing-id error; and for every table whose rows are exactly two rows
sharing the same truthy id value, the check reports exactly one error —
the duplicate report for the second occurrence (rows with falsy ids are
instead reported as missing an id and are excluded from duplicate
detection, as the counterexample shows). -/
theorem id_uniqueness_two_rows_amended :
    (∀ (name : String) (seen : List JVal) (row : Row) (rest : List Row),
        rowGet row "id" = none →
        idCheckGo name seen (row :: rest) = idMissingMsg name :: idCheckGo name seen rest)
  ∧ (∀ (name : String) (schema : List (String × String)) (r1 r2 : Row) (v : JVal),
        rowGet r1 "id" = some v → rowGet r2 "id" = some v → jsFalsyV v = false →
        idTableErrors ⟨name, schema, [r1, r2]⟩ = [idDupMsg name v]) := by
  constructor
  · intro name seen row rest h
    rw [idCheckGo, h]
  · intro name schema r1 r2 v h1 h2 hv
    show idCheckGo name [] [r1, r2] = [idDupMsg name v]
    rw [idCheckGo, h1]
    simp only [hv, Bool.false_eq_true, if_false, List.contains_nil]
    rw [idCheckGo, h2]
    simp [hv, idCheckGo]

/-- Witness for the amended C2: two rows with the truthy id `usr_003`
yield exactly the one duplicate error. -/
theorem id_uniqueness_two_rows_amended_witness :
    idTableErrors ⟨"users", [("id", "string")],
        [[("id", .vstr "usr_003")], [("id", .vstr "usr_003"), ("x", .vnum 1)]]⟩
      = [idDupMsg "users" (.vstr "usr_003")]
  ∧ idCheckGo "users" [] [[("email", .vstr "a@x.com")]]
      = idMissingMsg "users" :: idCheckGo "users" [] [] := by
  constructor
  · exact id_uniqueness_two_rows_amended.2 "users" [("id", "string")]
      [("id", .vstr "usr_003")] [("id", .vstr "usr_003"), ("x", .vnum 1)]
      (.vstr "usr_003") (by decide) (by decide) (by decide)
  · exact id_uniqueness_two_rows_amended.1 "users" [] [("email", .vstr "a@x.com")] []
      (by decide)

/-- Claim C10: in the ID-uniqueness check a row whose id is falsy —
absent, null, the empty string or `0` — is reported with the missing-id
error and its id is not added to the seen set (so it is excluded from
duplicate detection); consequently two rows sharing the id `""` produce
two missing-id errors and no duplicate error, and a single row with the
numeric id `0` is reported as missing an id. -/
theorem id_uniqueness_falsy_semantics :
    (∀ (name : String) (seen : List JVal) (row : Row) (rest : List Row),
        jsFalsy (rowGet row "id") = true →
        idCheckGo name seen (row :: rest) = idMissingMsg name :: idCheckGo name seen rest)
  ∧ idTableErrors ⟨"t", [("id", "string")],
        [[("id", .vstr "")], [("id", .vstr "")]]⟩ = [idMissingMsg "t", idMissingMsg "t"]
  ∧ idTableErrors ⟨"t", [("id", "string")],
        [[("id", .vnum 0), ("x", .vstr "a")]]⟩ = [idMissingMsg "t"]
  ∧ idTableErrors ⟨"t", [("id", "string")], [[("x", .vstr "a")], [("id", .vnull)],
        [("id", .vbool false)]]⟩ = [idMissingMsg "t", idMissingMsg "t", idMissingMsg "t"] := by
  refine ⟨?_, rfl, rfl, rfl⟩
  intro name seen row rest h
  cases hg : rowGet row "id" with
  | none => rw [idCheckGo, hg]
  | some v =>
    have h' : jsFalsyV v = true := by rw [hg] at h; exact h
    rw [idCheckGo, hg]
    simp [h']

/-- Witness for C10: the falsy-id step equation at a concrete row with a
null id. -/
theorem id_uniqueness_falsy_semantics_witness :
    idCheckGo "m" [] [[("id", .vnull), ("y", .vnum 3)]]
      = idMissingMsg "m" :: idCheckGo "m" [] [] :=
  id_uniqueness_falsy_semantics.1 "m" [] [("id", .vnull), ("y", .vnum 3)] [] (by decide)

/-- Claim C4: the dataset-consistency errors are exactly one per
registry-listed table without a loaded file plus one per loaded file not
listed in the registry (the symmetric difference); when the registry's
names and the loaded names agree as sets the check yields no errors. -/
theorem dataset_consistency_symmdiff :
    (∀ (reg : List String) (ts : List Table),
        (datasetErrors reg ts).length =
          (reg.filter fun n => !(findTable ts n).isSome).length +
          (ts.filter fun t => !reg.contains t.name).length)
  ∧ (∀ (reg : List String) (ts : List Table),
        (∀ n, n ∈ reg ↔ n ∈ ts.map Table.name) → datasetErrors reg ts = []) := by
  constructor
  · intro reg ts
    unfold datasetErrors
    rw [List.length_append,
      length_flatMap_ite_singleton reg (fun n => (findTable ts n).isSome),
      length_flatMap_ite_singleton ts (fun t => reg.contains t.name)]
  · intro reg ts h
    unfold datasetErrors
    have h1 : (reg.flatMap fun n =>
        if (findTable ts n).isSome then []
        else ["Table \"" ++ n ++ "\" listed in dataset.json but no file found"]) = [] := by
      rw [List.flatMap_eq_nil_iff]
      intro n hn
      have : (findTable ts n).isSome = true := (findTable_isSome ts n).mpr ((h n).mp hn)
      simp [this]
    have h2 : (ts.flatMap fun t =>
        if reg.contains t.name then []
        else ["File " ++ t.name ++ ".json exists but not listed in dataset.json"]) = [] := by
      rw [List.flatMap_eq_nil_iff]
      intro t ht
      have : t.name ∈ reg := (h t.name).mpr (List.mem_map_of_mem Table.name ht)
      simp [this]
    rw [h1, h2]
    rfl

/-- An overlay whose fields list names `firstName`, with a single
value. -/
def ovNamesKenya : Overlay :=
  ⟨"first-names-kenya.json", "first-names-kenya", some "first-names-kenya",
   some "public", none, some ["firstName"], some ["Wanjiru"]⟩

/-- A table whose first row lacks `firstName` while its second row has
it. -/
def tSecondRowHasField : Table :=
  ⟨"users", [],
   [[("id", .vstr "usr_001")],
    [("id", .vstr "usr_002"), ("firstName", .vstr "User")]]⟩

/-- Counterexample to claim C6 as stated: a table that has a row
containing a field of the overlay's `fields` list, yet is not matched by
check 5 — the code samples only the first row, so the overlay's
values-count requirement is not applied even though the values are fewer
than the rows. -/
theorem overlay_matching_counterexample :
    (tSecondRowHasField.rows.any fun r => rowHas r "firstName") = true
  ∧ ovMatchingFields ovNamesKenya tSecondRowHasField = []
  ∧ (ovNamesKenya.values.getD []).length < tSecondRowHasField.rows.length
  ∧ ovTableErrors ovNamesKenya tSecondRowHasField = [] := by
  refine ⟨by decide, rfl, by decide, rfl⟩

/-- Claim C6 as amended: a table matches an overlay (and is thereby
subject to the values-count requirement) iff the table has at least one
row and its FIRST row contains at least one field name of the overlay's
`fields` list — field presence is sampled from the first row only, not
from any row. -/
theorem overlay_matching_amended :
    (∀ (o : Overlay) (t : Table),
        (ovMatchingFields o t).isEmpty = false ↔
          ∃ s rest, t.rows = s :: rest ∧ ∃ f ∈ o.fields.getD [], rowHas s f = true)
  ∧ (∀ (o : Overlay) (t : Table),
        (ovMatchingFields o t).isEmpty = true → ovTableErrors o t = []) := by
  constructor
  · intro o t
    obtain ⟨name, schema, rows⟩ := t
    cases rows with
    | nil => simp [ovMatchingFields]
    | cons s rest =>
      simp only [ovMatchingFields]
      constructor
      · intro h
        obtain ⟨f, hf⟩ := List.isEmpty_eq_false_iff_exists_mem.mp h
        rw [List.mem_filter] at hf
        exact ⟨s, rest, rfl, f, hf.1, hf.2⟩
      · rintro ⟨s', rest', he, f, hf, hhas⟩
        injection he with h1 h2
        subst h1
        subst h2
        apply List.isEmpty_eq_false_iff_exists_mem.mpr
        exact ⟨f, List.mem_filter.mpr ⟨hf, hhas⟩⟩
  · intro o t h
    simp [ovTableErrors, h]

/-- Witness for the amended C6: a table whose first row has the field
matches, and an empty table contributes no errors. -/
theorem overlay_matching_amended_witness :
    (ovMatchingFields ovNamesKenya
      ⟨"users", [], [[("firstName", .vstr "A")]]⟩).isEmpty = false
  ∧ ovTableErrors ovNamesKenya ⟨"users", [], []⟩ = [] := by
  constructor
  · exact (overlay_matching_amended.1 ovNamesKenya
      ⟨"users", [], [[("firstName", .vstr "A")]]⟩).mpr
      ⟨[("firstName", .vstr "A")], [], rfl, "firstName", by decide, by decide⟩
  · exact overlay_matching_amended.2 ovNamesKenya ⟨"users", [], []⟩ rfl

/-- An overlay with two values targeting `name`. -/
def insuffOverlay : Overlay :=
  ⟨"entity-names-base.json", "entity-names-base", some "entity-names-base",
   some "public", none, some ["name"], some ["Alpha", "Beta"]⟩

/-- A three-row table whose rows all carry `name`. -/
def threeRowTable : Table :=
  ⟨"entities", [],
   [[("id", .vstr "farm_001"), ("name", .vstr "Farm A")],
    [("id", .vstr "farm_002"), ("name", .vstr "Farm B")],
    [("id", .vstr "coop_001"), ("name", .vstr "Coop A")]]⟩

/-- Claim C7: when an overlay matches a table and its values are fewer
than the table's rows, check 5 records exactly one error per matching
field, the error naming the overlay file, the table, the field, the
needed count (the row count) and the available count (the values count);
every pair's errors are collected into the whole run's error list (no
early abort), and the concrete 2-values-versus-3-rows case yields exactly
the one expected error. -/
theorem overlay_insufficiency_semantics :
    (∀ (o : Overlay) (t : Table),
        (ovMatchingFields o t).isEmpty = false →
        (o.values.getD []).length < t.rows.length →
        ovTableErrors o t = (ovMatchingFields o t).map (ovInsuffMsg o t) ∧
        (ovTableErrors o t).length = (ovMatchingFields o t).length)
  ∧ (∀ (o : Overlay) (t : Table),
        ¬((o.values.getD []).length < t.rows.length) → ovTableErrors o t = [])
  ∧ (∀ (os : List Overlay) (ts : List Table) (o : Overlay) (t : Table),
        o ∈ os → t ∈ ts → ovTableErrors o t ⊆ ovCheck5Errors os ts)
  ∧ ovCheck5Errors [insuffOverlay] [threeRowTable]
      = ["entity-names-base.json: needs 3 values for entities.name, has 2"] := by
  refine ⟨?_, ?_, ?_, ?_⟩
  · intro o t h1 h2
    constructor
    · simp [ovTableErrors, h1, h2]
    · simp [ovTableErrors, h1, h2]
  · intro o t h2
    by_cases h1 : (ovMatchingFields o t).isEmpty = true <;> simp [ovTableErrors, h1, h2]
  · intro os ts o t ho ht e he
    exact List.mem_flatMap.mpr ⟨o, ho, List.mem_flatMap.mpr ⟨t, ht, he⟩⟩
  · rfl

/-- Witness for C7: the per-field error equation applied to the concrete
insufficient overlay and table, and collection across a stack of two
overlays. -/
theorem overlay_insufficiency_semantics_witness :
    ovTableErrors insuffOverlay threeRowTable
      = (ovMatchingFields insuffOverlay threeRowTable).map
          (ovInsuffMsg insuffOverlay threeRowTable)
  ∧ "entity-names-base.json: needs 3 values for entities.name, has 2"
      ∈ ovCheck5Errors [ovNamesKenya, insuffOverlay] [threeRowTable] := by
  constructor
  · exact (overlay_insufficiency_semantics.1 insuffOverlay threeRowTable
      (by decide) (by decide)).1
  · exact overlay_insufficiency_semantics.2.2.1 [ovNamesKenya, insuffOverlay]
      [threeRowTable] insuffOverlay threeRowTable (by decide) (by decide)
      (by decide)

/-- A public overlay that nevertheless carries a non-empty clients
array. -/
def pubWithClients : Overlay :=
  ⟨"names-base.json", "names-base", some "names-base",
   some "public", some ["acme"], some ["name"], some ["A"]⟩

/-- Counterexample to claim C8 as stated: its iff would make an overlay
with `visibility: "public"` and a present, non-empty `clients` array fail
the check, but the code accepts it with zero errors — `clients` is only
required for private overlays, never rejected for public ones. -/
theorem overlay_visibility_counterexample :
    ovCheck2Errors pubWithClients = []
  ∧ pubWithClients.visibility = some "public"
  ∧ pubWithClients.clients = some ["acme"] :=
  ⟨rfl, rfl, rfl⟩

/-- Claim C8 as amended: an overlay passes the visibility/clients check
exactly when its visibility is `public` or `private` and, IF the
visibility is `private`, its `clients` is a present non-empty array (the
converse direction of the claim's iff does not hold); in particular every
private overlay with a missing or empty clients array yields an error. -/
theorem overlay_visibility_amended :
    (∀ o : Overlay,
        ovCheck2Errors o = [] ↔
          ((o.visibility = some "public" ∨ o.visibility = some "private") ∧
           (o.visibility = some "private" → ∃ cs, o.clients = some cs ∧ cs ≠ [])))
  ∧ (∀ o : Overlay, o.visibility = some "private" →
        (o.clients = none ∨ o.clients = some []) → ovCheck2Errors o ≠ []) := by
  constructor
  · intro o
    by_cases hpub : o.visibility = some "public"
    · simp [ovCheck2Errors, hpub]
    · by_cases hpriv : o.visibility = some "private"
      · cases hc : o.clients with
        | none => simp [ovCheck2Errors, hpriv, hc]
        | some cs =>
          cases cs with
          | nil => simp [ovCheck2Errors, hpriv, hc]
          | cons c cs' => simp [ovCheck2Errors, hpriv, hc]
      · simp [ovCheck2Errors, hpub, hpriv]
  · intro o hpriv hc
    rcases hc with hc | hc <;> simp [ovCheck2Errors, hpriv, hc]

/-- Witness for the amended C8: a private overlay with a non-empty
clients array passes, a private overlay with no clients array fails. -/
theorem overlay_visibility_amended_witness :
    ovCheck2Errors ⟨"private-nestle.json", "private-nestle", some "private-nestle",
        some "private", some ["nestle"], some ["name"], some ["A"]⟩ = []
  ∧ ovCheck2Errors ⟨"private-bare.json", "private-bare", some "private-bare",
        some "private", none, some ["name"], some ["A"]⟩ ≠ [] := by
  constructor
  · exact (overlay_visibility_amended.1 _).mpr
      ⟨Or.inr rfl, fun _ => ⟨["nestle"], rfl, by decide⟩⟩
  · exact overlay_visibility_amended.2 _ rfl (Or.inl rfl)

/-- Claim C9: a check is counted as passed iff it produced zero errors
(and as failed otherwise, carrying its errors); the exit status is 0 iff
every check passed and 1 otherwise; and for a failed check at most ten
error messages are printed — exactly the errors when there are at most
ten, and the first ten followed by a remainder count otherwise. -/
theorem report_summary_semantics :
    (∀ checks : List CheckResult,
        (runReport checks).1 = (checks.filter fun c => c.errors.isEmpty).map (·.name) ∧
        (runReport checks).2
          = (checks.filter fun c => !c.errors.isEmpty).map fun c => (c.name, c.errors))
  ∧ (∀ checks : List CheckResult,
        exitCode checks = 0 ↔ ∀ c ∈ checks, c.errors = [])
  ∧ (∀ checks : List CheckResult,
        exitCode checks = 0 ∨ exitCode checks = 1)
  ∧ (∀ errors : List String, (displayErrors errors).length ≤ 11)
  ∧ (∀ errors : List String, errors.length ≤ 10 → displayErrors errors = errors)
  ∧ (∀ errors : List String, errors.length > 10 →
        displayErrors errors
          = errors.take 10 ++ ["... and " ++ toString (errors.length - 10) ++ " more"]) := by
  refine ⟨?_, ?_, ?_, ?_, ?_, ?_⟩
  · intro checks
    constructor
    · rw [runReport, runReport_append]
      simp
    · rw [runReport, runReport_append]
      simp
  · intro checks
    have hlen : (runReport checks).2.length
        = (checks.filter fun c => !c.errors.isEmpty).length := by
      rw [runReport, runReport_append]
      simp
    constructor
    · intro h c hc
      by_contra hne
      have hmem : c ∈ checks.filter fun c => !c.errors.isEmpty :=
        List.mem_filter.mpr ⟨hc, by simp [hne]⟩
      have hpos : 0 < (checks.filter fun c => !c.errors.isEmpty).length :=
        List.length_pos.mpr (List.ne_nil_of_mem hmem)
      rw [exitCode, hlen, if_pos hpos] at h
      exact absurd h one_ne_zero
    · intro h
      rw [exitCode, hlen]
      have hnil : (checks.filter fun c => !c.errors.isEmpty) = [] := by
        rw [List.filter_eq_nil_iff]
        intro c hc
        simp [h c hc]
      rw [hnil]
      rfl
  · intro checks
    rw [exitCode]
    split
    · right; rfl
    · left; rfl
  · intro errors
    rw [displayErrors, List.length_append]
    have h1 : (errors.take 10).length ≤ 10 := by
      rw [List.length_take]
      omega
    by_cases h : errors.length > 10
    · rw [if_pos h]
      simp only [List.length_cons, List.length_nil]
      omega
    · rw [if_neg h]
      simp only [List.length_nil]
      omega
  · intro errors h
    have hn : ¬(errors.length > 10) := by omega
    rw [displayErrors, if_neg hn, List.take_of_length_le h, List.append_nil]
  · intro errors h
    rw [displayErrors, if_pos h]

/-- Witness for C9: a two-error list printed verbatim, a twelve-error
list truncated to ten plus the remainder line, and a fully passing
battery exiting 0. -/
theorem report_summary_semantics_witness :
    displayErrors ["a", "b"] = ["a", "b"]
  ∧ displayErrors ["e1", "e2", "e3", "e4", "e5", "e6", "e7", "e8", "e9", "e10",
      "e11", "e12"]
      = ["e1", "e2", "e3", "e4", "e5", "e6", "e7", "e8", "e9", "e10",
         "... and 2 more"]
  ∧ exitCode [⟨"Dataset consistency", []⟩, ⟨"Checksums", []⟩] = 0 := by
  refine ⟨?_, ?_, ?_⟩
  · exact report_summary_semantics.2.2.2.2.1 ["a", "b"] (by decide)
  · exact (report_summary_semantics.2.2.2.2.2 ["e1", "e2", "e3", "e4", "e5", "e6",
      "e7", "e8", "e9", "e10", "e11", "e12"] (by decide)).trans rfl
  · exact (report_summary_semantics.2.1
      [⟨"Dataset consistency", []⟩, ⟨"Checksums", []⟩]).mpr (by decide)

/-- Counterexample to claim C5 as stated: the main validator's battery
has six checks whose sixth is "Checksums", and no check of either battery
is an overlay-validity check — the flat-format overlay checks live in the
separate overlay validation tool, outside the main Validator's fixed
battery. -/
theorem validator_sixth_check_counterexample :
    (mainChecks ⟨[], []⟩ [] none).map (fun c => c.name)
      = ["Dataset consistency", "Schema completeness", "ID uniqueness",
         "Foreign key integrity", "Relations consistency", "Checksums"]
  ∧ "Overlay validity" ∉ (mainChecks ⟨[], []⟩ [] none).map (fun c => c.name)
  ∧ (overlayChecks [] []).map (fun c => c.name)
      = ["Filename matches $meta.name", "Visibility valid, private has clients",
         "Fields is non-empty string array", "Values is non-empty array",
         "Values >= row count for matching tables"]
  ∧ "Overlay validity" ∉ (overlayChecks [] []).map (fun c => c.name) := by
  refine ⟨rfl, by decide, rfl, by decide⟩

/-- Claim C5 as amended: the main validator's sixth check is Checksums —
the symmetric difference between the checksum entries and the table
files, vacuous when `checksums.json` is absent; the flat-format
structural overlay checks ($meta.name/filename correspondence,
visibility/clients, field-list and value-list non-emptiness, values
versus row counts) form the separate overlay validation tool's five-check
battery, not a sixth check of the main battery. -/
theorem validator_sixth_check_amended :
    (∀ (reg : Registry) (ts : List Table) (cs : Option (List String)),
        (mainChecks reg ts cs).map (fun c => c.name)
          = ["Dataset consistency", "Schema completeness", "ID uniqueness",
             "Foreign key integrity", "Relations consistency", "Checksums"])
  ∧ (∀ (ovs : List Overlay) (ts : List Table),
        (overlayChecks ovs ts).map (fun c => c.name)
          = ["Filename matches $meta.name", "Visibility valid, private has clients",
             "Fields is non-empty string array", "Values is non-empty array",
             "Values >= row count for matching tables"])
  ∧ (∀ files : List String, checksumErrors files none = [])
  ∧ (∀ files cs : List String,
        (checksumErrors files (some cs)).length
          = (files.filter fun f => !cs.contains f).length
            + (cs.filter fun f => !files.contains f).length) := by
  refine ⟨fun reg ts cs => rfl, fun ovs ts => rfl, fun files => rfl, ?_⟩
  intro files cs
  show ((files.flatMap fun f =>
      if cs.contains f then [] else ["checksums.json missing entry for " ++ f]) ++
    (cs.flatMap fun f =>
      if files.contains f then []
      else ["checksums.json has entry for " ++ f ++ " but file not found"])).length = _
  rw [List.length_append,
    length_flatMap_ite_singleton files (fun f => cs.contains f),
    length_flatMap_ite_singleton cs (fun f => files.contains f)]

/-- Witness for C4: a registry and table set with equal name sets yield no
errors. -/
theorem dataset_consistency_symmdiff_witness :
    datasetErrors ["users", "entities"]
      [⟨"entities", [], []⟩, ⟨"users", [], []⟩] = [] := by
  refine dataset_consistency_symmdiff.2 ["users", "entities"]
    [⟨"entities", [], []⟩, ⟨"users", [], []⟩] ?_
  intro n
  simp only [List.map_cons, List.map_nil, List.mem_cons, List.not_mem_nil, or_false]
  tauto

end MockData
